import Mathlib

/-!
# MP3-Player-Linux: a shallow embedding of `source/mpp_verB304_lin.cpp`

The program is a terminal front-end around the external decoder `mpg123` and the
external mixer `amixer`.  The embedding below makes the environment explicit:

* the outcomes of the calls the program cannot control (`std::system`, `waitpid`,
  `read`) are taken from an `Env`, indexed by how many such calls were made before;
* everything the program does to the outside (commands, prints, terminal attribute
  changes, polls) is appended to a trace of `Event`s inside the `World`.

Line numbers in the doc comments refer to `source/mpp_verB304_lin.cpp`.
-/

namespace MP3Player

/-! ## Data model -/

/-- Language selection, `enum class Language { EN, PL }` (line 17). -/
inductive Language where
  | EN
  | PL
  deriving DecidableEq, Repr

/-- The fields of `struct termios` the program reads or writes.  `c_cc` is the
control-character array. -/
structure Termios where
  c_iflag : Nat
  c_oflag : Nat
  c_cflag : Nat
  c_lflag : Nat
  c_cc : List Nat
  deriving DecidableEq, Repr

/-- Value of `ICANON` in `<termios.h>` on Linux. -/
def ICANON : Nat := 2
/-- Value of `ECHO` in `<termios.h>` on Linux. -/
def ECHO : Nat := 8
/-- Index `VMIN` of `c_cc` in `<termios.h>` on Linux. -/
def VMIN : Nat := 6
/-- Index `VTIME` of `c_cc` in `<termios.h>` on Linux. -/
def VTIME : Nat := 5

/-- What the program does to the outside world, in order. -/
inductive Event where
  | system (cmd : String)
  | print (msg : String)
  | waitpid (pid : Int)
  | read
  | tcgetattr
  | tcsetattr (t : Termios)
  deriving DecidableEq, Repr

/-- Outcomes the program does not control: the return value of the k-th
`std::system` call, of the k-th `waitpid` call, and of the k-th `read` call
(number of bytes read, and the byte stored when that number is 1). -/
structure Env where
  sysRet : Nat → Int
  waitRet : Nat → Int
  readRet : Nat → Int × Nat

/-- The outside world as seen by the parent process: the terminal attributes of
standard input, the trace of events so far and the number of calls of each kind
made so far. -/
structure World where
  term : Termios
  trace : List Event
  nsys : Nat
  nwait : Nat
  nread : Nat
  deriving DecidableEq, Repr

/-- The local variables of the playback loop of `play_file_interactive`
(lines 118, 126, 127). -/
structure Session where
  pid : Int
  paused : Bool
  quit : Bool
  deriving DecidableEq, Repr

/-! ## Primitive calls -/

/-- The call `std::system(cmd)`: logs the command, returns the environment's answer. -/
def system (env : Env) (cmd : String) (w : World) : Int × World :=
  (env.sysRet w.nsys, { w with trace := w.trace ++ [Event.system cmd], nsys := w.nsys + 1 })

/-- Output on `std::cout` / `std::cerr`. -/
def print (msg : String) (w : World) : World :=
  { w with trace := w.trace ++ [Event.print msg] }

/-- The call `waitpid(pid, &status, WNOHANG)`. -/
def waitpid (env : Env) (pid : Int) (w : World) : Int × World :=
  (env.waitRet w.nwait, { w with trace := w.trace ++ [Event.waitpid pid], nwait := w.nwait + 1 })

/-- The call `tcgetattr(STDIN_FILENO, &t)`.  The program does not look at the
return code of the terminal calls; they are taken to succeed. -/
def tcgetattr (w : World) : Termios × World :=
  (w.term, { w with trace := w.trace ++ [Event.tcgetattr] })

/-- The call `tcsetattr(STDIN_FILENO, TCSANOW, &t)`, taken to succeed. -/
def tcsetattr (t : Termios) (w : World) : World :=
  { w with term := t, trace := w.trace ++ [Event.tcsetattr t] }

/-! ## Terminal mode (lines 26-37) -/

/-- The attributes `raw` built in `enable_raw_mode` (lines 28-31):
`raw.c_lflag &= ~(ICANON | ECHO); raw.c_cc[VMIN] = 1; raw.c_cc[VTIME] = 0;`
with `c_lflag` a 32-bit unsigned field. -/
def raw_of (orig_termios : Termios) : Termios :=
  { orig_termios with
    c_lflag := orig_termios.c_lflag &&& (2 ^ 32 - 1 - (ICANON ||| ECHO)),
    c_cc := (orig_termios.c_cc.set VMIN 1).set VTIME 0 }

/-- `enable_raw_mode` (lines 26-33): returns the captured attributes. -/
def enable_raw_mode (w : World) : Termios × World :=
  let g := tcgetattr w
  (g.1, tcsetattr (raw_of g.1) g.2)

/-- `disable_raw_mode` (lines 35-37). -/
def disable_raw_mode (orig_termios : Termios) (w : World) : World :=
  tcsetattr orig_termios w

/-- `getch_blocking` (lines 39-44): one `read` of one byte; the byte when exactly
one byte was read, 0 otherwise. -/
def getch_blocking (env : Env) (w : World) : Nat × World :=
  let r := env.readRet w.nread
  let w1 : World := { w with trace := w.trace ++ [Event.read], nread := w.nread + 1 }
  if r.1 = 1 then (r.2, w1) else (0, w1)

/-! ## Volume (lines 67-88) -/

/-- `run_amixer` (lines 67-70). -/
def run_amixer (env : Env) (cmd : String) (w : World) : Bool × World :=
  let r := system env cmd w
  (decide (r.1 = 0), r.2)

/-- The short-circuit `run_amixer(a) || run_amixer(b)`. -/
def run_amixer_or (env : Env) (a b : String) (w : World) : Bool × World :=
  let r := run_amixer env a w
  if r.1 then (true, r.2) else run_amixer env b r.2

def msg_volume_up_ok (language : Language) : String :=
  (if language = Language.PL then "Głośność zwiększona" else "[Volume increased]") ++ "\n"

def msg_volume_up_fail (language : Language) : String :=
  (if language = Language.PL then "Nie udało się zwiększyć głośności"
   else "[Failed to increase volume]") ++ "\n"

def msg_volume_down_ok (language : Language) : String :=
  (if language = Language.PL then "Głośność zmniejszona" else "[Volume decreased]") ++ "\n"

def msg_volume_down_fail (language : Language) : String :=
  (if language = Language.PL then "Nie udało się zmniejszyć głośności"
   else "[Failed to decrease volume]") ++ "\n"

/-- `volume_up` (lines 72-79). -/
def volume_up (env : Env) (language : Language) (w : World) : World :=
  let r := run_amixer_or env "amixer set Master 5%+ > /dev/null 2>&1"
    "amixer set PCM 5%+ > /dev/null 2>&1" w
  if r.1 then print (msg_volume_up_ok language) r.2
  else print (msg_volume_up_fail language) r.2

/-- `volume_down` (lines 81-88). -/
def volume_down (env : Env) (language : Language) (w : World) : World :=
  let r := run_amixer_or env "amixer set Master 5%- > /dev/null 2>&1"
    "amixer set PCM 5%- > /dev/null 2>&1" w
  if r.1 then print (msg_volume_down_ok language) r.2
  else print (msg_volume_down_fail language) r.2

/-! ## Playback session (lines 90-174) -/

/-- The text printed by `print_playback_help` (lines 90-112). -/
def playback_help_text (language : Language) : String :=
  if language = Language.PL then
    "\nSterowanie podczas odtwarzania:\n  s lub spacja   : Pauza/Wznowienie odtwarzania\n  B             : Głośniej\n  -             : Ciszej\n  q             : Zakończ odtwarzanie\n  h             : Pokaż tę pomoc\nUwaga: Zaawansowane klawisze (f,d,b,o,p itd.) wymagają implementacji.\n\n"
  else
    "\nPlayback Controls:\n  s or space    : Pause/Resume playback\n  B             : Volume up\n  -             : Volume down\n  q             : Quit current playback\n  h             : Show this help\nNote: Advanced keys (f,d,b,o,p etc.) require further implementation.\n\n"

/-- `print_playback_help` (lines 90-112). -/
def print_playback_help (language : Language) (w : World) : World :=
  print (playback_help_text language) w

def msg_paused (language : Language) : String :=
  if language = Language.PL then "Pauza\n" else "[Paused]\n"
def msg_pause_failed (language : Language) : String :=
  if language = Language.PL then "Nie udało się wstrzymać\n" else "[Pause failed]\n"
def msg_resumed (language : Language) : String :=
  if language = Language.PL then "Wznowiono\n" else "[Resumed]\n"
def msg_resume_failed (language : Language) : String :=
  if language = Language.PL then "Nie udało się wznowić\n" else "[Resume failed]\n"

/-- Character codes of the keys of the `switch` (lines 136-166). -/
def key_s : Nat := 115
def key_space : Nat := 32
def key_B : Nat := 66
def key_b : Nat := 98
def key_minus : Nat := 45
def key_q : Nat := 113
def key_h : Nat := 104

/-- The `case 's': case ' ':` arm (lines 137-151). -/
def toggle_pause (env : Env) (language : Language) (s : Session) (w : World) :
    Session × World :=
  let paused := !s.paused
  if paused then
    let r := system env "pkill -STOP mpg123" w
    ({ s with paused := paused },
      if r.1 = 0 then print (msg_paused language) r.2
      else print (msg_pause_failed language) r.2)
  else
    let r := system env "pkill -CONT mpg123" w
    ({ s with paused := paused },
      if r.1 = 0 then print (msg_resumed language) r.2
      else print (msg_resume_failed language) r.2)

/-- The dispatch step `if (c) { switch (c) { ... } }` (lines 135-167). -/
def dispatch (env : Env) (language : Language) (c : Nat) (s : Session) (w : World) :
    Session × World :=
  if c = 0 then (s, w)
  else if c = key_s ∨ c = key_space then toggle_pause env language s w
  else if c = key_B ∨ c = key_b then (s, volume_up env language w)
  else if c = key_minus then (s, volume_down env language w)
  else if c = key_q then ({ s with quit := true }, (system env "pkill mpg123" w).2)
  else if c = key_h then (s, print_playback_help language w)
  else (s, w)

/-- The loop `while (!quit) { ... }` (lines 129-168).  One unit of fuel is one
evaluation of the loop condition; `none` means the loop is still running when
the fuel is used up. -/
def session_loop (env : Env) (language : Language) :
    Nat → Session → World → Option (Session × World)
  | 0, _, _ => none
  | fuel + 1, s, w =>
    if s.quit then some (s, w)
    else
      let r := waitpid env s.pid w
      if r.1 = s.pid then some (s, r.2)
      else
        let k := getch_blocking env r.2
        let d := dispatch env language k.1 s k.2
        session_loop env language fuel d.1 d.2

/-- The loop followed by `disable_raw_mode(orig_termios)` (lines 129-170). -/
def session_run (env : Env) (language : Language) (orig_termios : Termios)
    (fuel : Nat) (s : Session) (w : World) : Option (Session × World) :=
  (session_loop env language fuel s w).map
    (fun r => (r.1, disable_raw_mode orig_termios r.2))

def msg_playing (language : Language) (filename : String) : String :=
  (if language = Language.PL then "Odtwarzanie: " else "Playing: ") ++ filename ++ "\n"

def msg_fork_failed (language : Language) : String :=
  if language = Language.PL then "Błąd: nie udało się wykonać fork.\n"
  else "Error: failed to fork playback process.\n"

/-- How a call of `play_file_interactive` ends for the process that runs it. -/
inductive PlayResult where
  /-- The function returned to its caller. -/
  | returned (w : World)
  /-- The child branch of `fork`: the process image is replaced by `mpg123`,
  or the process ends with `_exit(127)`; the function does not return. -/
  | child (w : World)
  /-- The loop is still running when the fuel is used up. -/
  | running
  deriving DecidableEq, Repr

/-- `play_file_interactive` (lines 114-174).  `pid` is the value `fork()` returned;
`filename` is the printed form of `file_path.filename()`. -/
def play_file_interactive (env : Env) (language : Language) (filename : String)
    (pid : Int) (fuel : Nat) (w : World) : PlayResult :=
  let w1 := print_playback_help language (print (msg_playing language filename) w)
  if pid = 0 then PlayResult.child w1
  else if pid > 0 then
    let e := enable_raw_mode w1
    match session_run env language e.1 fuel { pid := pid, paused := false, quit := false } e.2 with
    | some r => PlayResult.returned r.2
    | none => PlayResult.running
  else PlayResult.returned (print (msg_fork_failed language) w1)

/-! ## Validated integer input (lines 46-65)

Standard input is a list of characters; the empty list is end of input. -/

/-- `std::isspace` in the "C" locale: the characters formatted extraction skips. -/
def isspace (c : Char) : Bool :=
  c = ' ' || c = '\t' || c = '\n' || c = '\x0b' || c = '\x0c' || c = '\r'

/-- Decimal digit test used by formatted extraction. -/
def isdigit (c : Char) : Bool :=
  decide ('0'.toNat ≤ c.toNat) && decide (c.toNat ≤ '9'.toNat)

/-- Value of a run of decimal digits. -/
def digits_value (ds : List Char) : Nat :=
  ds.foldl (fun n c => 10 * n + (c.toNat - '0'.toNat)) 0

def INT_MAX : Int := 2147483647
def INT_MIN : Int := -2147483648

/-- Optional sign in front of a number: whether it is negative, and what follows. -/
def take_sign : List Char → Bool × List Char
  | '-' :: t => (true, t)
  | '+' :: t => (false, t)
  | s => (false, s)

/-- The extraction `std::cin >> val` for `int val` (line 50), as the C++ standard
library does it for a stream in decimal mode: leading white space is skipped, an
optional sign and the longest run of digits are consumed; the extraction fails
when there is no digit or when the number does not fit an `int`.  Returns the
value on success and the characters left in the stream. -/
def extract_int (inp : List Char) : Option Int × List Char :=
  let sg := take_sign (inp.dropWhile isspace)
  let ds := sg.2.takeWhile isdigit
  let rest := sg.2.dropWhile isdigit
  if ds = [] then (none, rest)
  else
    let v : Int := if sg.1 then -(digits_value ds : Int) else (digits_value ds : Int)
    if INT_MIN ≤ v ∧ v ≤ INT_MAX then (some v, rest) else (none, rest)

/-- The call `std::cin.ignore(max, '\n')`: drops characters up to and including the
next newline. -/
def ignore_line (inp : List Char) : List Char :=
  (inp.dropWhile (fun c => c != '\n')).drop 1

def msg_out_of_range (language : Language) (min_val max_val : Int) : String :=
  if language = Language.PL then
    "Wartość poza zakresem (" ++ toString min_val ++ "-" ++ toString max_val
      ++ "). Spróbuj ponownie.\n"
  else
    "Input out of range (" ++ toString min_val ++ "-" ++ toString max_val ++ "). Try again.\n"

def msg_invalid_input (language : Language) : String :=
  if language = Language.PL then "Niepoprawne dane. Wprowadź liczbę.\n"
  else "Invalid input. Please enter a number.\n"

/-- State of a run of `read_int_validated`: the value returned (`none` while the
loop is still running), the characters left on standard input and everything
printed so far. -/
structure ReadState where
  ret : Option Int
  cin : List Char
  out : List String
  deriving DecidableEq, Repr

/-- `read_int_validated` (lines 46-65).  One unit of fuel is one pass through the
body of `while (true)`; `ret = none` means the loop is still running when the
fuel is used up. -/
def read_int_validated (language : Language) (min_val max_val : Int) (prompt : String) :
    Nat → List Char → List String → ReadState
  | 0, cin, out => { ret := none, cin := cin, out := out }
  | fuel + 1, cin, out =>
    let e := extract_int cin
    match e.1 with
    | some val =>
      if val ≥ min_val ∧ val ≤ max_val then
        { ret := some val, cin := ignore_line e.2, out := out ++ [prompt] }
      else
        read_int_validated language min_val max_val prompt fuel e.2
          (out ++ [prompt, msg_out_of_range language min_val max_val])
    | none =>
      read_int_validated language min_val max_val prompt fuel (ignore_line e.2)
        (out ++ [prompt, msg_invalid_input language])

/-! ## Configuration file (lines 221-237 and 268-290) -/

/-- The lines successive calls of `std::getline(conf, line)` deliver until one
fails (line 228): a line ends at a newline, which is dropped; a last line without
newline is delivered when it is not empty; `cur` is the line read so far. -/
def getlines_from : List Char → List Char → List (List Char)
  | [], cur => if cur = [] then [] else [cur]
  | c :: cs, cur => if c = '\n' then cur :: getlines_from cs [] else getlines_from cs (cur ++ [c])

def getlines (content : List Char) : List (List Char) :=
  getlines_from content []

/-- The test `line.rfind("language=", 0) == 0` (line 229). -/
def is_language_line (line : List Char) : Bool :=
  "language=".toList.isPrefixOf line

/-- The body of the loop over the lines of `mp.conf` (lines 229-234), as a function
of the current `mp3_dir`. -/
def conf_step (mp3_dir line : List Char) : List Char :=
  if is_language_line line then mp3_dir
  else if mp3_dir = [] then line
  else mp3_dir

/-- The loop `while (std::getline(conf, line))` (lines 228-235) over the lines of
the file. -/
def read_conf_lines : List (List Char) → List Char → List Char
  | [], mp3_dir => mp3_dir
  | line :: rest, mp3_dir => read_conf_lines rest (conf_step mp3_dir line)

/-- The value of `mp3_dir` after lines 221-237; `conf = none` when `mp.conf` cannot
be opened. -/
def load_conf (conf : Option (List Char)) : List Char :=
  match conf with
  | none => []
  | some content => read_conf_lines (getlines content) []

/-- What is written to `mp.conf` on save (lines 278-283). -/
def save_conf (language : Language) (mp3_dir : List Char) : List Char :=
  (if mp3_dir ≠ [] then mp3_dir ++ ['\n'] else [])
    ++ (if language = Language.PL then "language=pl\n".toList else "language=en\n".toList)

/-- Result of the directory part of startup: the directory used, whether the user
was asked for a directory path, and the new content of `mp.conf` when it was
rewritten. -/
structure Startup where
  mp3_dir : List Char
  prompted : Bool
  written : Option (List Char)
  deriving DecidableEq, Repr

/-- Lines 221-237 and 268-290 of `main`.  `typed_dir` is the line the user types at
the directory prompt, `save_choice` the character read by `std::cin >> save_choice`
and `can_write` whether `mp.conf` can be opened for writing. -/
def startup (language : Language) (conf : Option (List Char)) (typed_dir : List Char)
    (save_choice : Char) (can_write : Bool) : Startup :=
  let mp3_dir := load_conf conf
  if mp3_dir = [] then
    if save_choice = 'y' ∨ save_choice = 'Y' ∨ save_choice = 't' ∨ save_choice = 'T' then
      if can_write then
        { mp3_dir := typed_dir, prompted := true, written := some (save_conf language typed_dir) }
      else { mp3_dir := typed_dir, prompted := true, written := none }
    else { mp3_dir := typed_dir, prompted := true, written := none }
  else { mp3_dir := mp3_dir, prompted := false, written := none }

/-! ## Menu sequencer (lines 349-365)

A playback session is a state transformer `play`, applied once per call of
`play_file_interactive`. -/

/-- The loop `for (auto& file : mp3_files) play_file_interactive(file);`
(lines 358-360). -/
def play_front_to_back {α σ : Type} (play : α → σ → σ) : List α → σ → σ
  | [], s => s
  | file :: rest, s => play_front_to_back play rest (play file s)

/-- The loop `for (auto it = mp3_files.rbegin(); it != mp3_files.rend(); ++it)
play_file_interactive(*it);` (lines 362-364).  `i` is the distance of `it` from
`rend()`, so `*it` is the element of index `i - 1`; the loop starts with
`i = mp3_files.size()`. -/
def play_back_to_front {α σ : Type} (play : α → σ → σ) (mp3_files : List α) : Nat → σ → σ
  | 0, s => s
  | i + 1, s =>
    match mp3_files[i]? with
    | some file => play_back_to_front play mp3_files i (play file s)
    | none => play_back_to_front play mp3_files i s

/-- The branches on `choice` of one round of the menu (lines 349-365);
`file_choice` is the number `read_int_validated` returned for choice 1. -/
def menu_play {α σ : Type} (play : α → σ → σ) (choice : Int) (file_choice : Int)
    (mp3_files : List α) (s : σ) : σ :=
  if choice = 1 then
    match mp3_files[(file_choice - 1).toNat]? with
    | some file => play file s
    | none => s
  else if choice = 2 then play_front_to_back play mp3_files s
  else if choice = 3 then play_back_to_front play mp3_files mp3_files.length s
  else s

/-- The files passed to `play_file_interactive`, in order, by one round of the menu. -/
def played {α : Type} (choice : Int) (file_choice : Int) (mp3_files : List α) : List α :=
  menu_play (fun file log => log ++ [file]) choice file_choice mp3_files []

/-! ## Vocabulary of the statements -/

/-- The text of a sequence of typed lines, each ended by the Enter key. -/
def typed_lines : List (List Char) → List Char
  | [] => []
  | line :: rest => line ++ '\n' :: typed_lines rest

/-- What `read_int_validated` with bounds 1 and 4 prints for each line of a
sequence of the rejected lines `0`, `5` and `abc`: the prompt, then the message
for a number out of range (`0`, `5`) or for input that is no number (`abc`). -/
def rejections (language : Language) (prompt : String) : List (List Char) → List String
  | [] => []
  | line :: rest =>
    prompt :: (if line = "abc".toList then msg_invalid_input language
      else msg_out_of_range language 1 4) :: rejections language prompt rest

/-- The reading of the specification's "first non-language line": the first line
of the file that does not start with `language=`. -/
def first_non_language_line (lines : List (List Char)) : Option (List Char) :=
  lines.find? (fun line => !is_language_line line)

/-- The first line of the file that is not empty and does not start with
`language=`. -/
def first_directory_line (lines : List (List Char)) : Option (List Char) :=
  lines.find? (fun line => !is_language_line line && decide (line ≠ []))

/-! ## Example environment used to instantiate the theorems -/

/-- An environment in which every external command fails with status 1, the child
has ended at the third poll, and the keys read are `x`, `s`, ` `, then `q`. -/
def env_example : Env where
  sysRet := fun _ => 1
  waitRet := fun k => if k = 2 then 7 else 0
  readRet := fun k => if k = 0 then (1, 120) else if k = 1 then (1, 115)
    else if k = 2 then (1, 32) else (1, 113)

/-- A cooked terminal (`ICANON` and `ECHO` set) and an empty history. -/
def world_example : World where
  term := { c_iflag := 0, c_oflag := 0, c_cflag := 0, c_lflag := 10, c_cc := List.replicate 32 0 }
  trace := []
  nsys := 0
  nwait := 0
  nread := 0

/-- A session that is playing child 7. -/
def session_example : Session where
  pid := 7
  paused := false
  quit := false

/-! ## Frame lemmas for the dispatch step and the loop -/

/-- The part of the world a step leaves alone when it neither touches the terminal
attributes nor polls the child nor reads a key. -/
def SameTerminal (w w' : World) : Prop :=
  w'.term = w.term ∧ w'.nwait = w.nwait ∧ w'.nread = w.nread

theorem SameTerminal.refl (w : World) : SameTerminal w w := ⟨rfl, rfl, rfl⟩

theorem SameTerminal.trans {a b c : World} (h1 : SameTerminal a b) (h2 : SameTerminal b c) :
    SameTerminal a c :=
  ⟨h2.1.trans h1.1, h2.2.1.trans h1.2.1, h2.2.2.trans h1.2.2⟩

theorem system_frame (env : Env) (cmd : String) (w : World) :
    SameTerminal w (system env cmd w).2 := ⟨rfl, rfl, rfl⟩

theorem print_frame (msg : String) (w : World) : SameTerminal w (print msg w) :=
  ⟨rfl, rfl, rfl⟩

theorem run_amixer_or_frame (env : Env) (a b : String) (w : World) :
    SameTerminal w (run_amixer_or env a b w).2 := by
  unfold run_amixer_or
  dsimp only
  split
  · exact system_frame env a w
  · exact (system_frame env a w).trans (system_frame env b _)

theorem volume_up_frame (env : Env) (language : Language) (w : World) :
    SameTerminal w (volume_up env language w) := by
  unfold volume_up
  dsimp only
  split
  · exact (run_amixer_or_frame env _ _ w).trans (print_frame _ _)
  · exact (run_amixer_or_frame env _ _ w).trans (print_frame _ _)

theorem volume_down_frame (env : Env) (language : Language) (w : World) :
    SameTerminal w (volume_down env language w) := by
  unfold volume_down
  dsimp only
  split
  · exact (run_amixer_or_frame env _ _ w).trans (print_frame _ _)
  · exact (run_amixer_or_frame env _ _ w).trans (print_frame _ _)

theorem toggle_pause_frame (env : Env) (language : Language) (s : Session) (w : World) :
    (toggle_pause env language s w).1.pid = s.pid ∧
    SameTerminal w (toggle_pause env language s w).2 := by
  have hp : ∀ (m1 m2 : String), SameTerminal w
      (if (system env "pkill -STOP mpg123" w).1 = 0 then
        print m1 (system env "pkill -STOP mpg123" w).2
       else print m2 (system env "pkill -STOP mpg123" w).2) := by
    intro m1 m2
    split
    · exact (system_frame env _ w).trans (print_frame _ _)
    · exact (system_frame env _ w).trans (print_frame _ _)
  have hc : ∀ (m1 m2 : String), SameTerminal w
      (if (system env "pkill -CONT mpg123" w).1 = 0 then
        print m1 (system env "pkill -CONT mpg123" w).2
       else print m2 (system env "pkill -CONT mpg123" w).2) := by
    intro m1 m2
    split
    · exact (system_frame env _ w).trans (print_frame _ _)
    · exact (system_frame env _ w).trans (print_frame _ _)
  unfold toggle_pause
  dsimp only
  split
  · exact ⟨rfl, hp _ _⟩
  · exact ⟨rfl, hc _ _⟩

theorem dispatch_frame (env : Env) (language : Language) (c : Nat) (s : Session) (w : World) :
    (dispatch env language c s w).1.pid = s.pid ∧
    SameTerminal w (dispatch env language c s w).2 := by
  unfold dispatch
  split
  · exact ⟨rfl, SameTerminal.refl w⟩
  · split
    · exact toggle_pause_frame env language s w
    · split
      · exact ⟨rfl, volume_up_frame env language w⟩
      · split
        · exact ⟨rfl, volume_down_frame env language w⟩
        · split
          · exact ⟨rfl, system_frame env _ w⟩
          · split
            · exact ⟨rfl, print_frame _ w⟩
            · exact ⟨rfl, SameTerminal.refl w⟩

theorem dispatch_quit_key (env : Env) (language : Language) (s : Session) (w : World) :
    (dispatch env language key_q s w).1.quit = true := by
  simp [dispatch, key_q, key_s, key_space, key_B, key_b, key_minus]

theorem getch_blocking_frame (env : Env) (w : World) :
    (getch_blocking env w).2.term = w.term ∧
    (getch_blocking env w).2.nwait = w.nwait ∧
    (getch_blocking env w).2.nread = w.nread + 1 := by
  unfold getch_blocking
  dsimp only
  split <;> exact ⟨rfl, rfl, rfl⟩

theorem session_loop_frame (env : Env) (language : Language) :
    ∀ (fuel : Nat) (s : Session) (w : World) (r : Session × World),
      session_loop env language fuel s w = some r → r.2.term = w.term ∧ r.1.pid = s.pid := by
  intro fuel
  induction fuel with
  | zero => intro s w r h; simp [session_loop] at h
  | succ n ih =>
    intro s w r h
    unfold session_loop at h
    by_cases hq : s.quit = true
    · simp [hq] at h
      subst h
      exact ⟨rfl, rfl⟩
    · simp only [hq] at h
      by_cases hw : (waitpid env s.pid w).1 = s.pid
      · simp [hw] at h
        subst h
        exact ⟨rfl, rfl⟩
      · simp only [hw] at h
        have h2 := ih _ _ r (by simpa using h)
        have hd := dispatch_frame env language (getch_blocking env (waitpid env s.pid w).2).1 s
          (getch_blocking env (waitpid env s.pid w).2).2
        have hg := getch_blocking_frame env (waitpid env s.pid w).2
        refine ⟨?_, ?_⟩
        · rw [h2.1, hd.2.1, hg.1]; rfl
        · rw [h2.2, hd.1]

theorem session_loop_ends (env : Env) (language : Language) :
    ∀ (k : Nat) (s : Session) (w : World),
      (env.waitRet (w.nwait + k) = s.pid ∨ env.readRet (w.nread + k) = (1, key_q)) →
      ∃ fuel r, session_loop env language fuel s w = some r := by
  intro k
  induction k with
  | zero =>
    intro s w h
    by_cases hq : s.quit = true
    · exact ⟨1, (s, w), by simp [session_loop, hq]⟩
    · by_cases hw : (waitpid env s.pid w).1 = s.pid
      · exact ⟨1, (s, (waitpid env s.pid w).2), by simp [session_loop, hq, hw]⟩
      · have hr : env.readRet w.nread = (1, key_q) := by
          rcases h with h | h
          · exact absurd (by simpa [waitpid] using h) hw
          · simpa using h
        have hk : (getch_blocking env (waitpid env s.pid w).2).1 = key_q := by
          simp [getch_blocking, waitpid, hr]
        refine ⟨2, dispatch env language key_q s (getch_blocking env (waitpid env s.pid w).2).2, ?_⟩
        simp [session_loop, hq, hw, hk, dispatch_quit_key]
  | succ n ih =>
    intro s w h
    by_cases hq : s.quit = true
    · exact ⟨1, (s, w), by simp [session_loop, hq]⟩
    · by_cases hw : (waitpid env s.pid w).1 = s.pid
      · exact ⟨1, (s, (waitpid env s.pid w).2), by simp [session_loop, hq, hw]⟩
      · have hd := dispatch_frame env language (getch_blocking env (waitpid env s.pid w).2).1 s
          (getch_blocking env (waitpid env s.pid w).2).2
        have hg := getch_blocking_frame env (waitpid env s.pid w).2
        obtain ⟨fuel, r, hr⟩ := ih
          (dispatch env language (getch_blocking env (waitpid env s.pid w).2).1 s
            (getch_blocking env (waitpid env s.pid w).2).2).1
          (dispatch env language (getch_blocking env (waitpid env s.pid w).2).1 s
            (getch_blocking env (waitpid env s.pid w).2).2).2
          (by
            rw [hd.1, hd.2.2.1, hd.2.2.2, hg.2.1, hg.2.2]
            simp only [waitpid]
            rcases h with h | h
            · left; rw [← h]; congr 1; omega
            · right; rw [← h]; congr 1; omega)
        exact ⟨fuel + 1, r, by simp only [session_loop, hq, hw]; simpa using hr⟩

theorem toggle_pause_eq (env : Env) (language : Language) (s : Session) (w : World) :
    toggle_pause env language s w =
      ({ s with paused := !s.paused },
       { w with
         trace := w.trace ++
           [Event.system (if s.paused then "pkill -CONT mpg123" else "pkill -STOP mpg123"),
            Event.print
              (if s.paused then
                (if env.sysRet w.nsys = 0 then msg_resumed language
                 else msg_resume_failed language)
               else
                (if env.sysRet w.nsys = 0 then msg_paused language
                 else msg_pause_failed language))],
         nsys := w.nsys + 1 }) := by
  unfold toggle_pause system print
  cases hp : s.paused <;> by_cases h0 : env.sysRet w.nsys = 0 <;> simp [h0]

theorem dispatch_pause_eq (env : Env) (language : Language) (c : Nat) (s : Session) (w : World)
    (hc : c = key_s ∨ c = key_space) :
    dispatch env language c s w = toggle_pause env language s w := by
  rcases hc with rfl | rfl <;> simp [dispatch, key_s, key_space]

theorem run_amixer_or_eq (env : Env) (a b : String) (w : World) :
    run_amixer_or env a b w =
      (decide (env.sysRet w.nsys = 0 ∨ env.sysRet (w.nsys + 1) = 0),
       { w with
         trace := w.trace ++ Event.system a ::
           (if env.sysRet w.nsys = 0 then [] else [Event.system b]),
         nsys := w.nsys + (if env.sysRet w.nsys = 0 then 1 else 2) }) := by
  unfold run_amixer_or run_amixer system
  by_cases h0 : env.sysRet w.nsys = 0 <;> simp [h0]

theorem raw_of_clears_icanon_echo (t : Termios) :
    (raw_of t).c_lflag &&& (ICANON ||| ECHO) = 0 := by
  have h : (2 ^ 32 - 1 - (ICANON ||| ECHO)) &&& (ICANON ||| ECHO) = 0 := by decide
  simp only [raw_of, Nat.and_assoc, h, Nat.and_zero]

/-! ## The claims -/

/-- C1: in the playback loop, for every byte read that is not one of `s`, space,
`B`, `b`, `-`, `q`, `h`, the dispatch step returns the session (paused flag, quit
flag, child pid) and the world (so no command is run and nothing is printed)
unchanged; this includes the 0 that `getch_blocking` delivers when `read` did not
return exactly one byte. -/
theorem dispatch_unmapped_key_noop (env : Env) (language : Language) (c : Nat)
    (s : Session) (w : World)
    (hc : c ∉ [key_s, key_space, key_B, key_b, key_minus, key_q, key_h]) :
    dispatch env language c s w = (s, w) ∧
    ((env.readRet w.nread).1 ≠ 1 →
      (getch_blocking env w).1 = 0 ∧
      dispatch env language (getch_blocking env w).1 s (getch_blocking env w).2
        = (s, (getch_blocking env w).2)) := by
  constructor
  · simp only [List.mem_cons, List.mem_singleton, List.not_mem_nil, or_false, not_or] at hc
    obtain ⟨h1, h2, h3, h4, h5, h6, h7⟩ := hc
    simp [dispatch, h1, h2, h3, h4, h5, h6, h7]
  · intro hn
    have h0 : (getch_blocking env w).1 = 0 := by simp [getch_blocking, hn]
    exact ⟨h0, by rw [h0]; simp [dispatch]⟩

theorem dispatch_unmapped_key_noop_witness :
    dispatch env_example Language.EN 120 session_example world_example
      = (session_example, world_example) :=
  (dispatch_unmapped_key_noop env_example Language.EN 120 session_example world_example
    (by decide)).1

/-- C2: for the keys `s` and space and every outcome of the signal command, the
dispatch step runs exactly one command, `pkill -STOP mpg123` when the session was
playing and `pkill -CONT mpg123` when it was paused, prints the status message
chosen by the outcome, and flips the paused flag whatever the outcome. -/
theorem dispatch_pause_key (env : Env) (language : Language) (c : Nat) (s : Session)
    (w : World) (hc : c = key_s ∨ c = key_space) :
    dispatch env language c s w =
      ({ s with paused := !s.paused },
       { w with
         trace := w.trace ++
           [Event.system (if s.paused then "pkill -CONT mpg123" else "pkill -STOP mpg123"),
            Event.print
              (if s.paused then
                (if env.sysRet w.nsys = 0 then msg_resumed language
                 else msg_resume_failed language)
               else
                (if env.sysRet w.nsys = 0 then msg_paused language
                 else msg_pause_failed language))],
         nsys := w.nsys + 1 }) := by
  rw [dispatch_pause_eq env language c s w hc, toggle_pause_eq]

theorem dispatch_pause_key_witness :
    dispatch env_example Language.EN 115 session_example world_example =
      ({ pid := 7, paused := true, quit := false },
       { world_example with
         trace := [Event.system "pkill -STOP mpg123", Event.print "[Pause failed]\n"],
         nsys := 1 }) :=
  dispatch_pause_key env_example Language.EN 115 session_example world_example
    (Or.inl rfl)

/-- C3: dispatching a pause key (`s` or space) twice gives back the session it
started from (same paused flag, quit flag and pid), for either starting value of
the paused flag and whatever the two signal commands returned; two commands were
run. -/
theorem dispatch_pause_twice (env : Env) (language : Language) (c1 c2 : Nat) (s : Session)
    (w : World) (h1 : c1 = key_s ∨ c1 = key_space) (h2 : c2 = key_s ∨ c2 = key_space) :
    (dispatch env language c2 (dispatch env language c1 s w).1
      (dispatch env language c1 s w).2).1 = s ∧
    (dispatch env language c2 (dispatch env language c1 s w).1
      (dispatch env language c1 s w).2).2.nsys = w.nsys + 2 := by
  rw [dispatch_pause_eq env language c1 s w h1, dispatch_pause_eq env language c2 _ _ h2,
    toggle_pause_eq, toggle_pause_eq]
  simp

theorem dispatch_pause_twice_witness :
    (dispatch env_example Language.PL 32 (dispatch env_example Language.PL 115
      session_example world_example).1
      (dispatch env_example Language.PL 115 session_example world_example).2).1
      = session_example ∧
    (dispatch env_example Language.PL 32 (dispatch env_example Language.PL 115
      session_example world_example).1
      (dispatch env_example Language.PL 115 session_example world_example).2).2.nsys
      = world_example.nsys + 2 :=
  dispatch_pause_twice env_example Language.PL 115 32 session_example world_example
    (Or.inl rfl) (Or.inr rfl)

/-- C4: during playback (quit flag not set, child not reported as ended by the
poll), when the key read is `q`, the rest of the session consists of exactly the
poll, the read, one `pkill mpg123` and the restoring `tcsetattr`: the loop ends at
once, whatever `pkill` returned, with no further `waitpid` or `read`; the paused
flag is as before and the quit flag is set. -/
theorem quit_key_ends_session (env : Env) (language : Language) (orig_termios : Termios)
    (fuel : Nat) (s : Session) (w : World)
    (hq : s.quit = false) (hw : env.waitRet w.nwait ≠ s.pid)
    (hr : env.readRet w.nread = (1, key_q)) :
    session_run env language orig_termios (fuel + 2) s w =
      some ({ s with quit := true },
        { term := orig_termios,
          trace := w.trace ++ [Event.waitpid s.pid, Event.read, Event.system "pkill mpg123",
            Event.tcsetattr orig_termios],
          nsys := w.nsys + 1, nwait := w.nwait + 1, nread := w.nread + 1 }) := by
  simp [session_run, session_loop, hq, waitpid, hw, getch_blocking, hr, dispatch, key_q,
    key_s, key_space, key_B, key_b, key_minus, system, disable_raw_mode, tcsetattr]

theorem quit_key_ends_session_witness :
    session_run env_example Language.EN world_example.term 2 session_example
      { world_example with nread := 3 } =
      some ({ pid := 7, paused := false, quit := true },
        { term := world_example.term,
          trace := [Event.waitpid 7, Event.read, Event.system "pkill mpg123",
            Event.tcsetattr world_example.term],
          nsys := 1, nwait := 1, nread := 4 }) :=
  quit_key_ends_session env_example Language.EN world_example.term 0 session_example
    { world_example with nread := 3 } rfl (by decide) rfl

/-- C5: `volume_up` and `volume_down` run the Master command first, run the PCM
command exactly when the Master command failed, and print the success message
exactly when a command they ran returned 0, the (different) failure message
otherwise; the keys `B`, `b` and `-` leave the session (paused flag, quit flag,
pid) as it was. -/
theorem volume_fallback (env : Env) (language : Language) (s : Session) (w : World) :
    volume_up env language w =
      { w with
        trace := w.trace ++ Event.system "amixer set Master 5%+ > /dev/null 2>&1" ::
          (if env.sysRet w.nsys = 0 then []
           else [Event.system "amixer set PCM 5%+ > /dev/null 2>&1"]) ++
          [Event.print
            (if env.sysRet w.nsys = 0 ∨ (env.sysRet w.nsys ≠ 0 ∧ env.sysRet (w.nsys + 1) = 0)
             then msg_volume_up_ok language else msg_volume_up_fail language)],
        nsys := w.nsys + (if env.sysRet w.nsys = 0 then 1 else 2) } ∧
    volume_down env language w =
      { w with
        trace := w.trace ++ Event.system "amixer set Master 5%- > /dev/null 2>&1" ::
          (if env.sysRet w.nsys = 0 then []
           else [Event.system "amixer set PCM 5%- > /dev/null 2>&1"]) ++
          [Event.print
            (if env.sysRet w.nsys = 0 ∨ (env.sysRet w.nsys ≠ 0 ∧ env.sysRet (w.nsys + 1) = 0)
             then msg_volume_down_ok language else msg_volume_down_fail language)],
        nsys := w.nsys + (if env.sysRet w.nsys = 0 then 1 else 2) } ∧
    msg_volume_up_ok language ≠ msg_volume_up_fail language ∧
    msg_volume_down_ok language ≠ msg_volume_down_fail language ∧
    dispatch env language key_B s w = (s, volume_up env language w) ∧
    dispatch env language key_b s w = (s, volume_up env language w) ∧
    dispatch env language key_minus s w = (s, volume_down env language w) := by
  refine ⟨?_, ?_, ?_, ?_, ?_, ?_, ?_⟩
  · unfold volume_up
    rw [run_amixer_or_eq]
    by_cases h0 : env.sysRet w.nsys = 0 <;> by_cases h1 : env.sysRet (w.nsys + 1) = 0 <;>
      simp [h0, h1, print]
  · unfold volume_down
    rw [run_amixer_or_eq]
    by_cases h0 : env.sysRet w.nsys = 0 <;> by_cases h1 : env.sysRet (w.nsys + 1) = 0 <;>
      simp [h0, h1, print]
  · cases language <;> decide
  · cases language <;> decide
  · simp [dispatch, key_B, key_s, key_space]
  · simp [dispatch, key_b, key_B, key_s, key_space]
  · simp [dispatch, key_minus, key_b, key_B, key_s, key_space]

/-- C9: whenever `play_file_interactive` returns, the terminal attributes are the
ones it found on entry, for every result of `fork`, every key sequence and every
sequence of poll results.  When `fork` fails it returns without ever changing the
attributes; when `fork` succeeds it returns as soon as a poll reports the child
as ended or the key `q` is read, and then the last event is the `tcsetattr` that
puts the entry attributes back; whenever the loop of the session ends, the
attributes at that point are the raw ones (`ICANON` and `ECHO` cleared). -/
theorem play_file_interactive_restores_terminal (env : Env) (language : Language)
    (filename : String) (pid : Int) (w : World) :
    (∀ fuel w', play_file_interactive env language filename pid fuel w
        = PlayResult.returned w' → w'.term = w.term) ∧
    (pid < 0 → ∀ fuel, play_file_interactive env language filename pid fuel w
        = PlayResult.returned
          { w with trace := w.trace ++ [Event.print (msg_playing language filename),
              Event.print (playback_help_text language),
              Event.print (msg_fork_failed language)] }) ∧
    (pid > 0 →
      (∃ k, env.waitRet (w.nwait + k) = pid ∨ env.readRet (w.nread + k) = (1, key_q)) →
      ∃ fuel w', play_file_interactive env language filename pid fuel w
          = PlayResult.returned w' ∧ w'.term = w.term ∧
        w'.trace.getLast? = some (Event.tcsetattr w.term)) ∧
    (∀ fuel r, session_loop env language fuel { pid := pid, paused := false, quit := false }
        (enable_raw_mode (print_playback_help language
          (print (msg_playing language filename) w))).2 = some r →
      r.2.term = raw_of w.term ∧ r.2.term.c_lflag &&& (ICANON ||| ECHO) = 0) := by
  refine ⟨?_, ?_, ?_, ?_⟩
  rotate_left 3
  · intro fuel r hr
    have hf := (session_loop_frame env language fuel _ _ r hr).1
    have ht : r.2.term = raw_of w.term := by rw [hf]; rfl
    exact ⟨ht, by rw [ht]; exact raw_of_clears_icanon_echo w.term⟩
  · intro fuel w' h
    unfold play_file_interactive at h
    dsimp only at h
    split at h
    · exact absurd h (by simp)
    · split at h
      · split at h
        · rename_i r hr
          injection h with h
          subst h
          simp [session_run, disable_raw_mode, tcsetattr] at hr
          obtain ⟨a, b, -, hab⟩ := hr
          rw [← hab]
          rfl
        · exact absurd h (by simp)
      · injection h with h
        subst h
        rfl
  · intro hneg fuel
    have h0 : pid ≠ 0 := by omega
    have h1 : ¬ pid > 0 := by omega
    simp [play_file_interactive, h0, h1, print_playback_help, print]
  · intro hpos hk
    obtain ⟨k, hk⟩ := hk
    have h0 : pid ≠ 0 := by omega
    obtain ⟨fuel, r, hr⟩ := session_loop_ends env language k
      { pid := pid, paused := false, quit := false }
      (enable_raw_mode (print_playback_help language
        (print (msg_playing language filename) w))).2 hk
    refine ⟨fuel, disable_raw_mode w.term r.2, ?_, rfl, ?_⟩
    · simp [play_file_interactive, h0, hpos, session_run, hr, enable_raw_mode, tcgetattr,
        print_playback_help, print]
      simp [enable_raw_mode, tcgetattr, print_playback_help, print] at hr
      simp [hr]
    · simp [disable_raw_mode, tcsetattr]

theorem play_file_interactive_restores_terminal_witness :
    ∃ fuel w', play_file_interactive env_example Language.EN "a.mp3" 7 fuel world_example
        = PlayResult.returned w' ∧ w'.term = world_example.term ∧
      w'.trace.getLast? = some (Event.tcsetattr world_example.term) :=
  (play_file_interactive_restores_terminal env_example Language.EN "a.mp3" 7
    world_example).2.2.1 (by decide) ⟨2, Or.inl rfl⟩

/-! ## Validated input -/

theorem extract_int_skip_newline (cin : List Char) :
    extract_int ('\n' :: cin) = extract_int cin := by
  have h : isspace '\n' = true := by decide
  simp [extract_int, List.dropWhile_cons, h]

theorem read_int_validated_skip_newline (language : Language) (min_val max_val : Int)
    (prompt : String) (fuel : Nat) (cin : List Char) (out : List String) :
    read_int_validated language min_val max_val prompt (fuel + 1) ('\n' :: cin) out
      = read_int_validated language min_val max_val prompt (fuel + 1) cin out := by
  simp only [read_int_validated, extract_int_skip_newline]

theorem read_int_validated_in_range (language : Language) (min_val max_val : Int)
    (prompt : String) :
    ∀ (fuel : Nat) (cin : List Char) (out : List String) (v : Int),
      (read_int_validated language min_val max_val prompt fuel cin out).ret = some v →
      min_val ≤ v ∧ v ≤ max_val := by
  intro fuel
  induction fuel with
  | zero => intro cin out v h; simp [read_int_validated] at h
  | succ n ih =>
    intro cin out v h
    unfold read_int_validated at h
    dsimp only at h
    split at h
    · rename_i val hval
      split at h
      · rename_i hr
        simp at h
        subst h
        exact ⟨hr.1, hr.2⟩
      · exact ih _ _ v h
    · exact ih _ _ v h

theorem read_int_validated_accepts (language : Language) (prompt : String) (k : Nat)
    (hk : 1 ≤ k ∧ k ≤ 4) (tail : List Char) (out : List String) (fuel : Nat) :
    read_int_validated language 1 4 prompt (fuel + 1) (Nat.digitChar k :: '\n' :: tail) out
      = { ret := some (k : Int), cin := tail, out := out ++ [prompt] } := by
  obtain ⟨h1, h4⟩ := hk
  interval_cases k
  · have he : extract_int ('1' :: '\n' :: tail) = (some 1, '\n' :: tail) := rfl
    simp [read_int_validated, Nat.digitChar, he, ignore_line]
  · have he : extract_int ('2' :: '\n' :: tail) = (some 2, '\n' :: tail) := rfl
    simp [read_int_validated, Nat.digitChar, he, ignore_line]
  · have he : extract_int ('3' :: '\n' :: tail) = (some 3, '\n' :: tail) := rfl
    simp [read_int_validated, Nat.digitChar, he, ignore_line]
  · have he : extract_int ('4' :: '\n' :: tail) = (some 4, '\n' :: tail) := rfl
    simp [read_int_validated, Nat.digitChar, he, ignore_line]

theorem read_int_validated_rejects (language : Language) (prompt : String)
    (line : List Char) (hl : line ∈ ["0".toList, "5".toList, "abc".toList])
    (tail : List Char) (out : List String) (fuel : Nat) :
    read_int_validated language 1 4 prompt (fuel + 2) (line ++ '\n' :: tail) out
      = read_int_validated language 1 4 prompt (fuel + 1) tail
          (out ++ rejections language prompt [line]) := by
  simp only [List.mem_cons, List.mem_singleton, List.not_mem_nil, or_false] at hl
  rcases hl with rfl | rfl | rfl
  · have he : extract_int ('0' :: '\n' :: tail) = (some 0, '\n' :: tail) := rfl
    have hne : "0".toList ≠ "abc".toList := by decide
    rw [show "0".toList ++ '\n' :: tail = '0' :: '\n' :: tail from rfl]
    rw [read_int_validated]
    simp only [he, rejections, hne, if_false]
    rw [read_int_validated_skip_newline]
    simp
  · have he : extract_int ('5' :: '\n' :: tail) = (some 5, '\n' :: tail) := rfl
    have hne : "5".toList ≠ "abc".toList := by decide
    rw [show "5".toList ++ '\n' :: tail = '5' :: '\n' :: tail from rfl]
    rw [read_int_validated]
    simp only [he, rejections, hne, if_false]
    rw [read_int_validated_skip_newline]
    simp
  · have he : extract_int ('a' :: 'b' :: 'c' :: '\n' :: tail)
        = (none, 'a' :: 'b' :: 'c' :: '\n' :: tail) := rfl
    have hi : ignore_line ('a' :: 'b' :: 'c' :: '\n' :: tail) = tail := rfl
    rw [show "abc".toList ++ '\n' :: tail = 'a' :: 'b' :: 'c' :: '\n' :: tail from rfl]
    rw [read_int_validated]
    simp only [he, hi, rejections, if_true]

theorem rejections_append (language : Language) (prompt : String) (a b : List (List Char)) :
    rejections language prompt (a ++ b)
      = rejections language prompt a ++ rejections language prompt b := by
  induction a with
  | nil => rfl
  | cons x xs ih => simp [rejections, ih]

theorem read_int_validated_retries (language : Language) (prompt : String) (k : Nat)
    (hk : 1 ≤ k ∧ k ≤ 4) (tail : List Char) :
    ∀ (bad : List (List Char)) (out : List String),
      (∀ line ∈ bad, line ∈ ["0".toList, "5".toList, "abc".toList]) →
      read_int_validated language 1 4 prompt (bad.length + 1)
        (typed_lines bad ++ Nat.digitChar k :: '\n' :: tail) out
        = { ret := some (k : Int), cin := tail,
            out := out ++ rejections language prompt bad ++ [prompt] } := by
  intro bad
  induction bad with
  | nil =>
    intro out _
    simpa [typed_lines, rejections] using
      read_int_validated_accepts language prompt k hk tail out 0
  | cons line rest ih =>
    intro out hbad
    have hl := hbad line (List.mem_cons_self _ _)
    have hrest : ∀ l ∈ rest, l ∈ ["0".toList, "5".toList, "abc".toList] :=
      fun l hl => hbad l (List.mem_cons_of_mem _ hl)
    have ht : typed_lines (line :: rest) ++ Nat.digitChar k :: '\n' :: tail
        = line ++ '\n' :: (typed_lines rest ++ Nat.digitChar k :: '\n' :: tail) := by
      simp [typed_lines]
    rw [ht, List.length_cons, read_int_validated_rejects language prompt line hl, ih _ hrest]
    have hr : rejections language prompt (line :: rest)
        = rejections language prompt [line] ++ rejections language prompt rest :=
      rejections_append language prompt [line] rest
    rw [hr]
    simp [List.append_assoc]

/-- C6: `read_int_validated` only ever returns a value inside the inclusive bounds;
a number outside the bounds and an input that is no number are each answered with
their message and another pass of the prompt loop, a number inside the bounds is
returned at once; with bounds 1 and 4, after any number of lines `0`, `5` or `abc`
(each rejected and followed by the prompt again) a line `1`, `2`, `3` or `4` is
returned as that number. -/
theorem read_int_validated_spec (language : Language) (min_val max_val : Int)
    (prompt : String) :
    (∀ (fuel : Nat) (cin : List Char) (out : List String) (v : Int),
      (read_int_validated language min_val max_val prompt fuel cin out).ret = some v →
      min_val ≤ v ∧ v ≤ max_val) ∧
    (∀ (fuel : Nat) (cin rest : List Char) (out : List String) (v : Int),
      extract_int cin = (some v, rest) → min_val ≤ v → v ≤ max_val →
      read_int_validated language min_val max_val prompt (fuel + 1) cin out
        = { ret := some v, cin := ignore_line rest, out := out ++ [prompt] }) ∧
    (∀ (fuel : Nat) (cin rest : List Char) (out : List String) (v : Int),
      extract_int cin = (some v, rest) → ¬ (min_val ≤ v ∧ v ≤ max_val) →
      read_int_validated language min_val max_val prompt (fuel + 1) cin out
        = read_int_validated language min_val max_val prompt fuel rest
            (out ++ [prompt, msg_out_of_range language min_val max_val])) ∧
    (∀ (fuel : Nat) (cin rest : List Char) (out : List String),
      extract_int cin = (none, rest) →
      read_int_validated language min_val max_val prompt (fuel + 1) cin out
        = read_int_validated language min_val max_val prompt fuel (ignore_line rest)
            (out ++ [prompt, msg_invalid_input language])) ∧
    (∀ (k : Nat), 1 ≤ k ∧ k ≤ 4 →
      ∀ (tail : List Char) (bad : List (List Char)) (out : List String),
      (∀ line ∈ bad, line ∈ ["0".toList, "5".toList, "abc".toList]) →
      read_int_validated language 1 4 prompt (bad.length + 1)
        (typed_lines bad ++ Nat.digitChar k :: '\n' :: tail) out
        = { ret := some (k : Int), cin := tail,
            out := out ++ rejections language prompt bad ++ [prompt] }) := by
  refine ⟨read_int_validated_in_range language min_val max_val prompt, ?_, ?_, ?_, ?_⟩
  · intro fuel cin rest out v he h1 h2
    simp [read_int_validated, he, h1, h2]
  · intro fuel cin rest out v he hn
    rw [read_int_validated]
    simp only [he]
    have hn2 : ¬ (v ≥ min_val ∧ v ≤ max_val) := hn
    simp only [hn2, if_false]
  · intro fuel cin rest out he
    rw [read_int_validated]
    simp only [he]
  · intro k hk tail bad out hbad
    exact read_int_validated_retries language prompt k hk tail bad out hbad

theorem read_int_validated_spec_witness :
    ((1 : Int) ≤ 3 ∧ (3 : Int) ≤ 4) ∧
    read_int_validated Language.EN 1 4 "" 4 "abc\n0\n5\n3\nrest".toList [] =
      { ret := some 3, cin := "rest".toList,
        out := ["", "Invalid input. Please enter a number.\n",
                "", "Input out of range (1-4). Try again.\n",
                "", "Input out of range (1-4). Try again.\n", ""] } :=
  ⟨(read_int_validated_spec Language.EN 1 4 "").1 4 "abc\n0\n5\n3\nrest".toList [] 3 rfl,
   (read_int_validated_spec Language.EN 1 4 "").2.2.2.2 3 ⟨by decide, by decide⟩
     "rest".toList ["abc".toList, "0".toList, "5".toList] [] (by decide)⟩

/-! ## Configuration file -/

theorem read_conf_lines_of_set (lines : List (List Char)) (mp3_dir : List Char)
    (h : mp3_dir ≠ []) : read_conf_lines lines mp3_dir = mp3_dir := by
  induction lines with
  | nil => rfl
  | cons line rest ih =>
    have hs : conf_step mp3_dir line = mp3_dir := by
      unfold conf_step
      split
      · rfl
      · simp [h]
    rw [read_conf_lines, hs, ih]

theorem read_conf_lines_eq (lines : List (List Char)) :
    read_conf_lines lines [] = (first_directory_line lines).getD [] := by
  induction lines with
  | nil => rfl
  | cons line rest ih =>
    rw [read_conf_lines]
    by_cases hl : is_language_line line = true
    · have hs : conf_step [] line = [] := by simp [conf_step, hl]
      rw [hs, ih]
      simp [first_directory_line, List.find?_cons, hl]
    · by_cases he : line = []
      · have hs : conf_step [] line = [] := by simp [conf_step, he]
        rw [hs, ih]
        simp [first_directory_line, List.find?_cons, he]
      · have hs : conf_step [] line = line := by simp [conf_step, hl]
        rw [hs, read_conf_lines_of_set rest line he]
        simp [first_directory_line, List.find?_cons, hl, he]

theorem first_directory_line_ne_nil (lines : List (List Char)) (d : List Char)
    (h : first_directory_line lines = some d) : d ≠ [] := by
  have h2 := List.find?_some h
  simp only [Bool.and_eq_true, decide_eq_true_eq] at h2
  exact h2.2

theorem getlines_from_line (d : List Char) (h : '\n' ∉ d) (rest cur : List Char) :
    getlines_from (d ++ '\n' :: rest) cur = (cur ++ d) :: getlines_from rest [] := by
  induction d generalizing cur with
  | nil => simp [getlines_from]
  | cons c cs ih =>
    have hc : c ≠ '\n' := fun hc => h (by simp [hc])
    have hcs : '\n' ∉ cs := fun hcs => h (List.mem_cons_of_mem _ hcs)
    simp [getlines_from, hc, ih hcs]

/-- C7, as the code has it: the playback directory read from the lines of the
configuration file is the first line that is not empty and does not start with
`language=`, whatever the other lines say (and is empty when there is no such
line); whenever the file has such a line, startup uses it as the directory, does
not prompt for a directory path and does not rewrite the file. -/
theorem conf_directory_is_first_directory_line (lines : List (List Char)) :
    read_conf_lines lines [] = (first_directory_line lines).getD [] ∧
    (∀ (language : Language) (content typed_dir d : List Char) (save_choice : Char)
      (can_write : Bool),
      getlines content = lines → first_directory_line lines = some d →
      startup language (some content) typed_dir save_choice can_write
        = { mp3_dir := d, prompted := false, written := none }) := by
  refine ⟨read_conf_lines_eq lines, ?_⟩
  intro language content typed_dir d save_choice can_write hc hd
  have hne := first_directory_line_ne_nil lines d hd
  have hload : load_conf (some content) = d := by
    simp [load_conf, hc, read_conf_lines_eq, hd]
  simp [startup, hload, hne]

theorem conf_directory_is_first_directory_line_witness :
    startup Language.EN (some "\nlanguage=pl\n/music\n/other\n".toList) "/typed".toList 'y' true
      = { mp3_dir := "/music".toList, prompted := false, written := none } :=
  (conf_directory_is_first_directory_line
    (getlines "\nlanguage=pl\n/music\n/other\n".toList)).2 Language.EN
    "\nlanguage=pl\n/music\n/other\n".toList "/typed".toList "/music".toList 'y' true
    rfl (by decide)

/-- C7 as stated fails: in the file with an empty first line and `/music` as second
line, the first line that does not start with `language=` is the empty line, but
the directory read is `/music`; and for the file that holds only an empty line,
which does have a line that does not start with `language=`, startup prompts for
a directory. -/
theorem conf_first_non_language_line_counterexample :
    first_non_language_line (getlines "\n/music\n".toList) = some [] ∧
    load_conf (some "\n/music\n".toList) = "/music".toList ∧
    first_non_language_line (getlines "\n".toList) = some [] ∧
    (startup Language.EN (some "\n".toList) "/typed".toList 'n' false).prompted = true ∧
    ¬ (∀ (lines : List (List Char)) (d : List Char),
        first_non_language_line lines = some d → read_conf_lines lines [] = d) := by
  refine ⟨by decide, by decide, by decide, by decide, ?_⟩
  intro h
  have h1 := h (getlines "\n/music\n".toList) [] (by decide)
  exact absurd h1 (by decide)

/-- C10: for a directory string that is not empty, has no newline and does not
start with `language=`, and for either language, what `main` writes to `mp.conf`
on save is read back by the startup configuration reader as exactly that directory,
and the next startup uses it without prompting. -/
theorem save_conf_load_conf_roundtrip (language : Language) (d : List Char)
    (hne : d ≠ []) (hnl : '\n' ∉ d) (hlang : is_language_line d = false) :
    (startup language none d 'y' true).written = some (save_conf language d) ∧
    getlines (save_conf language d)
      = [d, if language = Language.PL then "language=pl".toList else "language=en".toList] ∧
    load_conf (some (save_conf language d)) = d ∧
    (∀ (language2 : Language) (typed_dir : List Char) (save_choice : Char) (can_write : Bool),
      startup language2 (some (save_conf language d)) typed_dir save_choice can_write
        = { mp3_dir := d, prompted := false, written := none }) := by
  have hg : getlines (save_conf language d)
      = [d, if language = Language.PL then "language=pl".toList else "language=en".toList] := by
    unfold getlines save_conf
    simp only [hne, ne_eq, not_false_eq_true, if_true, List.append_assoc, List.singleton_append]
    rw [getlines_from_line d hnl]
    cases language <;> simp [getlines_from]
  have hl : load_conf (some (save_conf language d)) = d := by
    simp only [load_conf, hg, read_conf_lines]
    have h1 : conf_step [] d = d := by simp [conf_step, hlang]
    rw [h1]
    unfold conf_step
    cases language <;> simp [hne, is_language_line]
  refine ⟨?_, hg, hl, ?_⟩
  · simp [startup, load_conf]
  · intro language2 typed_dir save_choice can_write
    simp [startup, hl, hne]

theorem save_conf_load_conf_roundtrip_witness :
    load_conf (some (save_conf Language.PL "/home/me/music".toList))
      = "/home/me/music".toList :=
  (save_conf_load_conf_roundtrip Language.PL "/home/me/music".toList
    (by decide) (by decide) (by decide)).2.2.1

/-! ## Menu sequencer -/

theorem play_back_to_front_eq {α σ : Type} (play : α → σ → σ) (mp3_files : List α) :
    ∀ (i : Nat) (s : σ), i ≤ mp3_files.length →
      play_back_to_front play mp3_files i s
        = play_front_to_back play (mp3_files.take i).reverse s := by
  intro i
  induction i with
  | zero => intro s _; simp [play_back_to_front, play_front_to_back]
  | succ n ih =>
    intro s hn
    have hlt : n < mp3_files.length := hn
    have hget : mp3_files[n]? = some mp3_files[n] := List.getElem?_eq_getElem hlt
    have ht : (mp3_files.take (n + 1)).reverse = mp3_files[n] :: (mp3_files.take n).reverse := by
      rw [List.take_succ, hget]
      simp
    rw [play_back_to_front, hget, ht]
    simp only [play_front_to_back]
    exact ih _ (Nat.le_of_lt hlt)

theorem play_front_to_back_log {α : Type} (files : List α) :
    ∀ (log : List α),
      play_front_to_back (fun file log => log ++ [file]) files log = log ++ files := by
  induction files with
  | nil => intro log; simp [play_front_to_back]
  | cons f fs ih => intro log; simp [play_front_to_back, ih]

/-- C8: for every list of discovered files, menu choice 2 passes the files to
`play_file_interactive` in list order, each once, and menu choice 3 passes them in
exactly the reverse order, each once: entry `i` of one sequence is entry
`n - 1 - i` of the other (counting from 0); this holds for any effect of a
playback session. -/
theorem back_to_front_is_reverse {α : Type} (mp3_files : List α) (file_choice : Int) :
    played 2 file_choice mp3_files = mp3_files ∧
    played 3 file_choice mp3_files = (played 2 file_choice mp3_files).reverse ∧
    (played 3 file_choice mp3_files).length = mp3_files.length ∧
    (played 3 file_choice mp3_files).Perm (played 2 file_choice mp3_files) ∧
    (∀ (i : Nat), i < mp3_files.length →
      (played 3 file_choice mp3_files)[i]?
        = (played 2 file_choice mp3_files)[mp3_files.length - 1 - i]?) ∧
    (∀ (σ : Type) (play : α → σ → σ) (s : σ),
      menu_play play 3 file_choice mp3_files s
        = menu_play play 2 file_choice mp3_files.reverse s) := by
  have h2 : played 2 file_choice mp3_files = mp3_files := by
    simp [played, menu_play, play_front_to_back_log]
  have h3 : played 3 file_choice mp3_files = mp3_files.reverse := by
    simp [played, menu_play, play_back_to_front_eq, play_front_to_back_log]
  refine ⟨h2, by rw [h3, h2], by rw [h3, List.length_reverse], ?_, ?_, ?_⟩
  · rw [h3, h2]
    exact List.reverse_perm mp3_files
  · intro i hi
    rw [h3, h2, List.getElem?_reverse hi]
  · intro σ play s
    simp [menu_play, play_back_to_front_eq]

theorem back_to_front_is_reverse_witness :
    (played 3 0 ["a.mp3", "b.mp3", "c.mp3"])[0]?
      = (played 2 0 ["a.mp3", "b.mp3", "c.mp3"])[["a.mp3", "b.mp3", "c.mp3"].length - 1 - 0]? :=
  (back_to_front_is_reverse ["a.mp3", "b.mp3", "c.mp3"] 0).2.2.2.2.1 0 (by decide)

end MP3Player
